import Mathlib

/-!
Verification of the sql-text-helper CSV utilities.

The development shallowly embeds the two Python modules:

* `src/csv_to_mysql.py` — `csv_column_to_mysql_tuple`,
  `csv_to_mysql_update_script`, `save_to_file` and the tail of `main`
  that decides whether a result is printed / written;
* `src/deduplicate_csv.py` — `deduplicate_csv` (the pandas
  `drop_duplicates` call is modelled as keep-first row deduplication,
  which is pandas' documented default).

A parsed CSV file is a header plus a list of rows (`CSVFile`); a file
that could not be opened is represented by `none` at the call sites,
mirroring the `FileNotFoundError` handler that returns `None`.  Python
exceptions that the code catches are modelled by `Option`: an error
path yields `none`.
-/

/-- A parsed CSV file: the header line and the data rows.  `DictReader`
keys each row by the header; we keep rows positional and look cells up
through `header.zip row`. -/
structure CSVFile where
  header : List String
  rows : List (List String)
deriving DecidableEq, Repr

/-- Well-formedness of a parsed CSV as assumed by the spec's data model:
column names are distinct and every row has one value per column. -/
def CSVFile.WellFormed (csv : CSVFile) : Prop :=
  csv.header.Nodup ∧ ∀ r ∈ csv.rows, r.length = csv.header.length

instance (csv : CSVFile) : Decidable csv.WellFormed := by
  unfold CSVFile.WellFormed; infer_instance

/-- Python's `sep.join(l)`. -/
def pyJoin (sep : String) : List String → String
  | [] => ""
  | [v] => v
  | v :: rest => v ++ sep ++ pyJoin sep rest

/-- Python truthiness of an optional string: `None` and `""` are falsy. -/
def pyTruthy : Option String → Bool
  | none => false
  | some s => s != ""

/-- Python's `s.lower()` (ASCII case mapping, which covers the header
names this tool deals with). -/
def pyLower (s : String) : String :=
  String.mk (s.data.map Char.toLower)

/-- Python's `s.strip()`: drop whitespace from both ends. -/
def pyStrip (s : String) : String :=
  String.mk (((s.data.dropWhile Char.isWhitespace).reverse.dropWhile
    Char.isWhitespace).reverse)

/-- `col.lower().replace(' ', '')` — lower-case and remove every space. -/
def lowerNoSpaces (s : String) : String :=
  String.mk ((pyLower s).data.filter (fun c => c != ' '))

/-- First matching pass of `csv_column_to_mysql_tuple`: exact
case-insensitive match against the field names. -/
def findColumnPass1 (fieldnames : List String) (column_name : String) : Option String :=
  fieldnames.find? (fun col => pyLower col == pyLower column_name)

/-- Second matching pass: case-insensitive match after removing spaces. -/
def findColumnPass2 (fieldnames : List String) (column_name : String) : Option String :=
  fieldnames.find? (fun col => lowerNoSpaces col == lowerNoSpaces column_name)

/-- Column resolution of `csv_column_to_mysql_tuple` (lines 42–59 of
`csv_to_mysql.py`): the second pass runs only when the first leaves
`actual_column` falsy, and a falsy final value means failure.  (Python's
`if not actual_column` treats the empty string like `None`.) -/
def resolveColumn (fieldnames : List String) (column_name : String) : Option String :=
  let a1 := findColumnPass1 fieldnames column_name
  let a2 := if pyTruthy a1 then a1 else findColumnPass2 fieldnames column_name
  if pyTruthy a2 then a2 else none

/-- `row[col]` for a `DictReader` row, written over the positional row:
the value paired with `col` in `header.zip row`. -/
def getCell (header row : List String) (col : String) : String :=
  (List.lookup col (header.zip row)).getD ""

/-- The value-collection loop of `csv_column_to_mysql_tuple`: each row's
cell in the resolved column is stripped, empty results are dropped. -/
def extractValues (csv : CSVFile) (col : String) : List String :=
  csv.rows.filterMap (fun row =>
    let v := pyStrip (getCell csv.header row col)
    if v = "" then none else some v)

/-- `csv_column_to_mysql_tuple(csv_file, column_name, add_quotes)`.
`none` as input stands for a missing file (the `FileNotFoundError`
branch returns `None`); every other error branch also returns `None`. -/
def csv_column_to_mysql_tuple (input : Option CSVFile) (column_name : String)
    (add_quotes : Bool) : Option String :=
  match input with
  | none => none
  | some csv =>
    match resolveColumn csv.header column_name with
    | none => none
    | some actual =>
      let values := extractValues csv actual
      if values = [] then none
      else if add_quotes then
        some ("(" ++ pyJoin ", " (values.map (fun v => "'" ++ v ++ "'")) ++ ")")
      else
        some ("(" ++ pyJoin ", " values ++ ")")

/-- The `SET` clause of one UPDATE statement: every `(column, value)`
pair of the row dict except the `id` key, in header order. -/
def set_clause (header row : List String) : String :=
  pyJoin ", " (((header.zip row).filter (fun p => p.1 != "id")).map
    (fun p => p.1 ++ " = " ++ p.2))

/-- One UPDATE statement; `row['id']` raises `KeyError` when the row
dict has no `id` key, so the result is optional. -/
def update_statement (table_name : String) (header row : List String) : Option String :=
  (List.lookup "id" (header.zip row)).map (fun idv =>
    "Update " ++ table_name ++ " set " ++ set_clause header row ++
      " where id = " ++ idv ++ ";")

/-- The statement-building loop of `csv_to_mysql_update_script`: a
`KeyError` on any row aborts the whole call. -/
def build_statements (table_name : String) (header : List String) :
    List (List String) → Option (List String)
  | [] => some []
  | row :: rest =>
    match update_statement table_name header row with
    | none => none
    | some stmt => (build_statements table_name header rest).map (fun l => stmt :: l)

/-- `csv_to_mysql_update_script(csv_file, table_name)`: joins the
per-row statements with newlines; errors (missing file, `KeyError`)
return `None`. -/
def csv_to_mysql_update_script (input : Option CSVFile) (table_name : String) :
    Option String :=
  match input with
  | none => none
  | some csv => (build_statements table_name csv.header csv.rows).map (pyJoin "\n")

/-- `os.path.dirname` for POSIX paths: everything before the last
slash, with trailing slashes stripped unless the head is all slashes. -/
def dirname (p : String) : String :=
  let headRev := p.data.reverse.dropWhile (fun c => c != '/')
  if headRev.all (fun c => c == '/') then String.mk headRev.reverse
  else String.mk ((headRev.dropWhile (fun c => c == '/')).reverse)

/-- The filesystem slice `save_to_file` touches: existing directories
and a file table mapping paths to contents. -/
structure FS where
  dirs : List String
  files : List (String × String)
deriving DecidableEq, Repr

/-- `os.makedirs(d, exist_ok=True)`: fails (raises) on the empty path,
otherwise ensures the directory exists. -/
def makedirs (fs : FS) (d : String) : Option FS :=
  if d = "" then none
  else some { fs with dirs := if d ∈ fs.dirs then fs.dirs else d :: fs.dirs }

/-- Overwrite-or-insert into the file table (what `open(f, 'w')` plus
`write` does to the filesystem). -/
def setFile (files : List (String × String)) (k v : String) : List (String × String) :=
  if files.any (fun p => p.1 == k) then
    files.map (fun p => if p.1 = k then (k, v) else p)
  else files ++ [(k, v)]

/-- File-content lookup. -/
def lookupFile (fs : FS) (k : String) : Option String :=
  (List.lookup k fs.files)

/-- `save_to_file(content, output_file)`: `os.makedirs` on the dirname,
then write.  Any exception is caught and printed, so a failing
`makedirs` leaves the filesystem unchanged and the call still returns. -/
def save_to_file (fs : FS) (content output_file : String) : FS :=
  match makedirs fs (dirname output_file) with
  | none => fs
  | some fs2 => { fs2 with files := setFile fs2.files output_file content }

/-- The tail of `main` (lines 176–179): `if result:` guards both the
save and the print, so `None` and `""` produce neither.  Returns the
filesystem after the call and whether the result was printed. -/
def main_tail (fs : FS) (result : Option String) (output_file : Option String) :
    FS × Bool :=
  if pyTruthy result then
    (match output_file with
     | some f => save_to_file fs (result.getD "") f
     | none => fs, true)
  else (fs, false)

/-- Keep-first deduplication with an accumulator of already-seen rows —
the behaviour of `df.drop_duplicates()` (pandas keeps the first
occurrence by default). -/
def dedupAux (seen : List (List String)) : List (List String) → List (List String)
  | [] => []
  | r :: rs => if r ∈ seen then dedupAux seen rs else r :: dedupAux (r :: seen) rs

/-- `df.drop_duplicates()` on the rows of a dataset. -/
def drop_duplicates (rows : List (List String)) : List (List String) :=
  dedupAux [] rows

/-- `deduplicate_csv`: the written dataset keeps the input header and
the first occurrence of each distinct row.  (`to_csv(index=False)`
always writes the header line.) -/
def deduplicate_csv (d : CSVFile) : CSVFile :=
  ⟨d.header, drop_duplicates d.rows⟩

/-! ### Spec-side definitions

These follow the spec's wording and are compared with the embedded
source functions in the refinement theorems below. -/

/-- Spec 4.1: "for each row, read the resolved column's value, trim
surrounding whitespace, and discard it if it becomes empty". -/
def specTupleValues (csv : CSVFile) (col : String) : List String :=
  (csv.rows.map (fun row => pyStrip (getCell csv.header row col))).filter
    (fun v => v != "")

/-- Spec 4.1: "join the values with `, `, wrapping each value in single
quotes when `add_quotes` is true, and wrap the whole joined string in
parentheses". -/
def specTupleString (values : List String) (add_quotes : Bool) : String :=
  "(" ++ pyJoin ", " (values.map (fun v =>
    if add_quotes then "'" ++ v ++ "'" else v)) ++ ")"

/-- Spec 4.2: the `SET` clause joins `<column> = <value>` for every
column except `id`, in the header's original column order. -/
def specUpdateLine (table_name : String) (header row : List String) : String :=
  "Update " ++ table_name ++ " set " ++
    pyJoin ", " ((header.filter (fun c => c != "id")).map
      (fun c => c ++ " = " ++ getCell header row c)) ++
    " where id = " ++ getCell header row "id" ++ ";"

/-- Spec 4.4: "a new sequence retaining only the first occurrence of
each distinct row", built left to right. -/
def firstOccurrences (rows : List (List String)) : List (List String) :=
  rows.foldl (fun acc r => if r ∈ acc then acc else acc ++ [r]) []

/-- Splitting a character list on the two-character separator `, `,
scanning left to right (the spec's "splitting on `, `"). -/
def splitCommaSpace : List Char → List (List Char)
  | [] => [[]]
  | [c] => [[c]]
  | c1 :: c2 :: rest =>
    if c1 = ',' ∧ c2 = ' ' then [] :: splitCommaSpace rest
    else
      match splitCommaSpace (c2 :: rest) with
      | [] => [[c1]]
      | h :: t => (c1 :: h) :: t

/-- Whether `, ` occurs inside a character list. -/
def containsSep : List Char → Bool
  | [] => false
  | [_] => false
  | c1 :: c2 :: rest => (c1 = ',' && c2 = ' ') || containsSep (c2 :: rest)

/-- Joining character lists with `, ` — `pyJoin ", "` at the character
level. -/
def joinCS : List (List Char) → List Char
  | [] => []
  | [v] => v
  | v :: rest => v ++ ',' :: ' ' :: joinCS rest

/-- The spec's round trip on a tuple string: trim the outer parentheses
(first and last character) and split on `, `. -/
def splitTuple (s : String) : List String :=
  (splitCommaSpace ((s.data.drop 1).dropLast)).map String.mk

/-- The formatted tokens inside a tuple string: the extracted values,
quoted when `add_quotes` is true. -/
def formattedValues (csv : CSVFile) (col : String) (add_quotes : Bool) : List String :=
  (extractValues csv col).map (fun v => if add_quotes then "'" ++ v ++ "'" else v)

/-! ### Helper lemmas -/

theorem strData_append (a b : String) : (a ++ b).data = a.data ++ b.data := by
  cases a; cases b; rfl

theorem filterMap_strip_eq_filter_map (f : List String → String)
    (l : List (List String)) :
    l.filterMap (fun x =>
        let v := f x
        if v = "" then none else some v)
      = (l.map f).filter (fun v => v != "") := by
  induction l with
  | nil => rfl
  | cons x xs ih =>
    by_cases hx : f x = "" <;>
      simp [List.filterMap_cons, List.filter_cons, hx, ih]

theorem extractValues_eq_spec (csv : CSVFile) (col : String) :
    extractValues csv col = specTupleValues csv col := by
  unfold extractValues specTupleValues
  exact filterMap_strip_eq_filter_map _ _

theorem str_mk_data (s : String) : String.mk s.data = s := rfl

theorem splitCS_no_sep (v : List Char) (h : containsSep v = false) :
    splitCommaSpace v = [v] := by
  induction v with
  | nil => rfl
  | cons c1 rest ih =>
    cases rest with
    | nil => rfl
    | cons c2 rest2 =>
      simp only [containsSep, Bool.or_eq_false_iff] at h
      obtain ⟨h1, h2⟩ := h
      rw [splitCommaSpace, if_neg (by simpa using h1), ih h2]

theorem splitCS_append_sep (v w : List Char) (h : containsSep v = false) :
    splitCommaSpace (v ++ ',' :: ' ' :: w) = v :: splitCommaSpace w := by
  induction v with
  | nil => simp [splitCommaSpace]
  | cons c1 rest ih =>
    cases rest with
    | nil =>
      show splitCommaSpace (c1 :: ',' :: ' ' :: w) = [c1] :: splitCommaSpace w
      rw [splitCommaSpace, if_neg (by simp), splitCommaSpace, if_pos ⟨rfl, rfl⟩]
    | cons c2 rest2 =>
      simp only [containsSep, Bool.or_eq_false_iff] at h
      obtain ⟨h1, h2⟩ := h
      show splitCommaSpace (c1 :: c2 :: (rest2 ++ ',' :: ' ' :: w)) = _
      rw [splitCommaSpace, if_neg (by simpa using h1)]
      have := ih h2
      rw [show (c2 :: rest2) ++ ',' :: ' ' :: w = c2 :: (rest2 ++ ',' :: ' ' :: w) from rfl] at this
      rw [this]

theorem splitCS_joinCS (ts : List (List Char)) (hne : ts ≠ [])
    (h : ∀ t ∈ ts, containsSep t = false) :
    splitCommaSpace (joinCS ts) = ts := by
  induction ts with
  | nil => exact absurd rfl hne
  | cons v rest ih =>
    cases rest with
    | nil => simpa [joinCS] using splitCS_no_sep v (h v (by simp))
    | cons v2 rest2 =>
      show splitCommaSpace (v ++ ',' :: ' ' :: joinCS (v2 :: rest2)) = _
      rw [splitCS_append_sep v _ (h v (by simp)),
        ih (by simp) (fun t ht => h t (List.mem_cons_of_mem _ ht))]

theorem pyJoin_commaSpace_data (l : List String) :
    (pyJoin ", " l).data = joinCS (l.map String.data) := by
  induction l with
  | nil => rfl
  | cons v rest ih =>
    cases rest with
    | nil => rfl
    | cons v2 rest2 =>
      show (v ++ ", " ++ pyJoin ", " (v2 :: rest2)).data = v.data ++ ',' :: ' ' :: _
      rw [strData_append, strData_append, ih]
      simp

theorem tuple_shape (csv : CSVFile) (cn actual : String) (q : Bool) (s : String)
    (hres : resolveColumn csv.header cn = some actual)
    (hs : csv_column_to_mysql_tuple (some csv) cn q = some s) :
    s = "(" ++ pyJoin ", " (formattedValues csv actual q) ++ ")" ∧
      formattedValues csv actual q ≠ [] := by
  simp only [csv_column_to_mysql_tuple, hres] at hs
  by_cases hv : extractValues csv actual = []
  · rw [if_pos hv] at hs; cases hs
  · rw [if_neg hv] at hs
    cases q
    · simp only [Bool.false_eq_true, if_false, Option.some_inj] at hs
      refine ⟨hs.symm.trans ?_, ?_⟩
      · simp [formattedValues]
      · simp [formattedValues, hv]
    · simp only [if_true, Option.some_inj] at hs
      refine ⟨hs.symm.trans ?_, ?_⟩
      · simp [formattedValues]
      · simp [formattedValues, hv]

theorem lookup_zip_none (k : String) (hs vs : List String) (h : k ∉ hs) :
    List.lookup k (hs.zip vs) = none := by
  induction hs generalizing vs with
  | nil => rfl
  | cons h1 t ih =>
    cases vs with
    | nil => rfl
    | cons v vt =>
      have hne : (k == h1) = false := by
        simp only [beq_eq_false_iff_ne, ne_eq]
        exact fun e => h (e ▸ List.mem_cons_self _ _)
      simp only [List.zip_cons_cons, List.lookup, hne]
      exact ih _ (fun hk => h (List.mem_cons_of_mem _ hk))

theorem lookup_zip_ex (k : String) (hs vs : List String) (hk : k ∈ hs)
    (hlen : hs.length ≤ vs.length) :
    ∃ v, List.lookup k (hs.zip vs) = some v := by
  induction hs generalizing vs with
  | nil => cases hk
  | cons h1 t ih =>
    cases vs with
    | nil => simp at hlen
    | cons v vt =>
      by_cases he : k = h1
      · subst he; exact ⟨v, by simp [List.lookup]⟩
      · have hk' : k ∈ t := by
          cases List.mem_cons.mp hk with
          | inl h => exact absurd h he
          | inr h => exact h
        have hne : (k == h1) = false := by simpa using he
        simp only [List.zip_cons_cons, List.lookup, hne]
        exact ih _ hk' (by simpa using Nat.le_of_succ_le_succ hlen)

theorem getCell_cons_ne (h1 v : String) (t vt : List String) (c : String)
    (hne : c ≠ h1) : getCell (h1 :: t) (v :: vt) c = getCell t vt c := by
  have : (c == h1) = false := by simpa using hne
  simp [getCell, List.zip, List.lookup, this]

theorem zip_items_eq (hs : List String) : ∀ (vs : List String), hs.Nodup →
    hs.length = vs.length →
    ((hs.zip vs).filter (fun p => p.1 != "id")).map (fun p => p.1 ++ " = " ++ p.2)
      = (hs.filter (fun c => c != "id")).map
          (fun c => c ++ " = " ++ getCell hs vs c) := by
  induction hs with
  | nil => intro vs _ _; rfl
  | cons h1 t ih =>
    intro vs hnd hlen
    cases vs with
    | nil => simp at hlen
    | cons v vt =>
      have hnd1 : h1 ∉ t := (List.nodup_cons.mp hnd).1
      have hnd2 : t.Nodup := (List.nodup_cons.mp hnd).2
      have hlen' : t.length = vt.length := by simpa using hlen
      have hcell : (t.filter (fun c => c != "id")).map
            (fun c => c ++ " = " ++ getCell (h1 :: t) (v :: vt) c)
          = (t.filter (fun c => c != "id")).map
            (fun c => c ++ " = " ++ getCell t vt c) := by
        apply List.map_congr_left
        intro c hc
        have hct : c ∈ t := List.mem_of_mem_filter hc
        rw [getCell_cons_ne _ _ _ _ _ (fun e => hnd1 (by rw [← e]; exact hct))]
      by_cases hid : h1 = "id"
      · subst hid
        simp only [List.zip_cons_cons, List.filter_cons, bne_self_eq_false,
          Bool.false_eq_true, if_false]
        rw [hcell]
        exact ih vt hnd2 hlen'
      · have hbne : (h1 != "id") = true := by simpa using hid
        simp only [List.zip_cons_cons, List.filter_cons, hbne, if_true,
          List.map_cons]
        rw [hcell, ih vt hnd2 hlen']
        congr 1
        have : getCell (h1 :: t) (v :: vt) h1 = v := by simp [getCell, List.lookup]
        rw [this]

theorem update_statement_eq (t : String) (hs vs : List String)
    (hnd : hs.Nodup) (hid : "id" ∈ hs) (hlen : hs.length = vs.length) :
    update_statement t hs vs = some (specUpdateLine t hs vs) := by
  obtain ⟨v, hv⟩ := lookup_zip_ex "id" hs vs hid (le_of_eq hlen)
  simp only [update_statement, hv, Option.map_some']
  unfold specUpdateLine set_clause
  rw [zip_items_eq hs vs hnd hlen]
  have : getCell hs vs "id" = v := by simp [getCell, hv]
  rw [this]

theorem build_statements_eq (t : String) (hs : List String)
    (rows : List (List String))
    (h : ∀ r ∈ rows, update_statement t hs r = some (specUpdateLine t hs r)) :
    build_statements t hs rows = some (rows.map (specUpdateLine t hs)) := by
  induction rows with
  | nil => rfl
  | cons r rs ih =>
    simp only [build_statements, h r (List.mem_cons_self _ _),
      ih (fun x hx => h x (List.mem_cons_of_mem _ hx)), Option.map_some',
      List.map_cons]

theorem dedupAux_sublist (rows : List (List String)) :
    ∀ seen, (dedupAux seen rows).Sublist rows := by
  induction rows with
  | nil => intro seen; simp [dedupAux]
  | cons r rs ih =>
    intro seen
    simp only [dedupAux]
    by_cases h : r ∈ seen
    · rw [if_pos h]
      exact (ih seen).trans (List.sublist_cons_self r rs)
    · rw [if_neg h]
      exact (ih (r :: seen)).cons₂ r

theorem foldl_firstOcc_eq_dedupAux (rows : List (List String)) :
    ∀ (seen acc : List (List String)), (∀ x, x ∈ seen ↔ x ∈ acc) →
    rows.foldl (fun acc r => if r ∈ acc then acc else acc ++ [r]) acc
      = acc ++ dedupAux seen rows := by
  induction rows with
  | nil => intro seen acc _; simp [dedupAux]
  | cons r rs ih =>
    intro seen acc hiff
    simp only [List.foldl_cons, dedupAux]
    by_cases h : r ∈ seen
    · rw [if_pos h, if_pos ((hiff r).mp h)]
      exact ih seen acc hiff
    · rw [if_neg h, if_neg (fun hc => h ((hiff r).mpr hc))]
      rw [ih (r :: seen) (acc ++ [r])
        (fun x => by simp [List.mem_cons, hiff x, or_comm])]
      simp

theorem drop_duplicates_eq_firstOccurrences (rows : List (List String)) :
    drop_duplicates rows = firstOccurrences rows := by
  unfold drop_duplicates firstOccurrences
  rw [foldl_firstOcc_eq_dedupAux rows [] [] (fun x => by simp)]
  simp

theorem dedupAux_nodup_avoid (rows : List (List String)) :
    ∀ seen, (dedupAux seen rows).Nodup ∧ ∀ x ∈ dedupAux seen rows, x ∉ seen := by
  induction rows with
  | nil => intro seen; simp [dedupAux]
  | cons r rs ih =>
    intro seen
    simp only [dedupAux]
    by_cases h : r ∈ seen
    · rw [if_pos h]; exact ih seen
    · rw [if_neg h]
      obtain ⟨hnd, havoid⟩ := ih (r :: seen)
      refine ⟨List.nodup_cons.mpr ⟨?_, hnd⟩, ?_⟩
      · exact fun hc => (havoid r hc) (List.mem_cons_self _ _)
      · intro x hx
        cases List.mem_cons.mp hx with
        | inl he => rw [he]; exact h
        | inr ht => exact fun hc => (havoid x ht) (List.mem_cons_of_mem _ hc)

theorem dedupAux_of_nodup (rows : List (List String)) :
    ∀ seen, rows.Nodup → (∀ x ∈ rows, x ∉ seen) → dedupAux seen rows = rows := by
  induction rows with
  | nil => intro seen _ _; rfl
  | cons r rs ih =>
    intro seen hnd havoid
    simp only [dedupAux, if_neg (havoid r (List.mem_cons_self _ _))]
    rw [ih (r :: seen) (List.nodup_cons.mp hnd).2]
    intro x hx
    intro hc
    cases List.mem_cons.mp hc with
    | inl he => exact (List.nodup_cons.mp hnd).1 (he ▸ hx)
    | inr ht => exact havoid x (List.mem_cons_of_mem _ hx) ht

theorem drop_duplicates_idem (rows : List (List String)) :
    drop_duplicates (drop_duplicates rows) = drop_duplicates rows := by
  unfold drop_duplicates
  exact dedupAux_of_nodup _ [] (dedupAux_nodup_avoid rows []).1 (by simp)

theorem lookup_map_replace (files : List (String × String)) (k v : String) :
    List.lookup k (files.map (fun p => if p.1 = k then (k, v) else p))
      = if files.any (fun p => p.1 == k) then some v else none := by
  induction files with
  | nil => rfl
  | cons p ps ih =>
    by_cases hp : p.1 = k
    · rw [List.map_cons, if_pos hp]
      simp [List.lookup, List.any_cons, hp]
    · rw [List.map_cons, if_neg hp]
      have hk : (k == p.1) = false := by
        simp only [beq_eq_false_iff_ne, ne_eq]
        exact fun e => hp e.symm
      have hp' : (p.1 == k) = false := by simpa using hp
      simp only [List.lookup, hk, ih, List.any_cons, hp', Bool.false_or]

theorem lookup_append_single (files : List (String × String)) (k v : String)
    (h : files.any (fun p => p.1 == k) = false) :
    List.lookup k (files ++ [(k, v)]) = some v := by
  induction files with
  | nil => simp [List.lookup]
  | cons p ps ih =>
    simp only [List.any_cons, Bool.or_eq_false_iff] at h
    have hk : (k == p.1) = false := by
      simp only [beq_eq_false_iff_ne, ne_eq]
      intro e
      rw [e] at h
      simp at h
    simp only [List.cons_append, List.lookup, hk]
    exact ih h.2

theorem lookup_setFile (files : List (String × String)) (k v : String) :
    List.lookup k (setFile files k v) = some v := by
  unfold setFile
  by_cases h : files.any (fun p => p.1 == k) = true
  · rw [if_pos h, lookup_map_replace, if_pos h]
  · have h' : files.any (fun p => p.1 == k) = false := by
      cases hany : files.any (fun p => p.1 == k) with
      | false => rfl
      | true => exact absurd hany h
    rw [if_neg h, lookup_append_single files k v h']

/-! ### Claim theorems -/

/-- C1: for every CSV file with a header and a column name that resolves
against the header, `csv_column_to_mysql_tuple` returns exactly the
spec's string — each row's value in the resolved column, in row order,
trimmed, with empty values discarded, all values quoted exactly when
`add_quotes` is true, joined by `, ` and parenthesised — and fails
(returns `none`) when no values survive trimming. -/
theorem C1_tuple_matches_spec (csv : CSVFile) (cn actual : String) (q : Bool)
    (h : resolveColumn csv.header cn = some actual) :
    csv_column_to_mysql_tuple (some csv) cn q =
      if specTupleValues csv actual = [] then none
      else some (specTupleString (specTupleValues csv actual) q) := by
  simp only [csv_column_to_mysql_tuple, h, extractValues_eq_spec]
  by_cases hv : specTupleValues csv actual = []
  · simp [hv]
  · cases q <;> simp [hv, specTupleString]

/-- Witness for C1 at a concrete CSV (header `PRODUCT_CODE`, one empty
value filtered out). -/
theorem C1_tuple_matches_spec_witness :
    csv_column_to_mysql_tuple
        (some ⟨["PRODUCT_CODE"], [["ABC123"], [""], ["DEF456"]]⟩)
        "PRODUCT_CODE" true =
      if specTupleValues ⟨["PRODUCT_CODE"], [["ABC123"], [""], ["DEF456"]]⟩
          "PRODUCT_CODE" = [] then none
      else some (specTupleString
        (specTupleValues ⟨["PRODUCT_CODE"], [["ABC123"], [""], ["DEF456"]]⟩
          "PRODUCT_CODE") true) :=
  C1_tuple_matches_spec ⟨["PRODUCT_CODE"], [["ABC123"], [""], ["DEF456"]]⟩
    "PRODUCT_CODE" "PRODUCT_CODE" true (by decide)

/-- C2: for every well-formed CSV whose header includes `id`,
`csv_to_mysql_update_script` produces one
`Update <table> set <col> = <val>, ... where id = <id>;` line per row in
order — set clause over every non-`id` column in header order, values
verbatim — joined by newlines with no trailing newline; and the spec's
`id,name,age` example yields exactly its two statements. -/
theorem C2_update_script_matches_spec (csv : CSVFile) (t : String)
    (hwf : csv.WellFormed) (hid : "id" ∈ csv.header) :
    csv_to_mysql_update_script (some csv) t
      = some (pyJoin "\n" (csv.rows.map (specUpdateLine t csv.header))) ∧
    csv_to_mysql_update_script
        (some ⟨["id", "name", "age"],
          [["1", "'may'", "10"], ["2", "'Allen'", "15"]]⟩) "user"
      = some ("Update user set name = 'may', age = 10 where id = 1;\n" ++
          "Update user set name = 'Allen', age = 15 where id = 2;") := by
  constructor
  · simp only [csv_to_mysql_update_script]
    rw [build_statements_eq t csv.header csv.rows
      (fun r hr => update_statement_eq t csv.header r hwf.1 hid (hwf.2 r hr).symm)]
    rfl
  · decide

/-- Witness for C2 at the spec's example CSV. -/
theorem C2_update_script_matches_spec_witness :
    csv_to_mysql_update_script
        (some ⟨["id", "name", "age"],
          [["1", "'may'", "10"], ["2", "'Allen'", "15"]]⟩) "user"
      = some (pyJoin "\n"
          ([["1", "'may'", "10"], ["2", "'Allen'", "15"]].map
            (specUpdateLine "user" ["id", "name", "age"]))) :=
  (C2_update_script_matches_spec
    ⟨["id", "name", "age"], [["1", "'may'", "10"], ["2", "'Allen'", "15"]]⟩
    "user" (by decide) (by decide)).1

/-- C3: `deduplicate_csv` keeps the header (also on zero data rows, and
with the column order untouched), keeps exactly the first occurrence of
each distinct row under full-row equality, and never reorders the
surviving rows (they form a sublist of the input). -/
theorem C3_deduplicate_first_occurrences (d : CSVFile) :
    (deduplicate_csv d).header = d.header ∧
    (deduplicate_csv d).rows = firstOccurrences d.rows ∧
    (deduplicate_csv d).rows.Sublist d.rows := by
  refine ⟨rfl, ?_, ?_⟩
  · exact drop_duplicates_eq_firstOccurrences d.rows
  · exact dedupAux_sublist d.rows []

/-- C4 counterexample: with header `Product Code`, extracting
`product_code` fails (underscores are not stripped, only spaces) while
`PRODUCT CODE` succeeds, so the two results differ, refuting the claim's
example. -/
theorem C4_resolution_counterexample :
    csv_column_to_mysql_tuple (some ⟨["Product Code"], [["X"]]⟩)
        "product_code" true = none ∧
    csv_column_to_mysql_tuple (some ⟨["Product Code"], [["X"]]⟩)
        "PRODUCT CODE" true = some "('X')" := by
  constructor
  · decide
  · decide

/-- C4 (amended): resolution is two-pass — exact case-insensitive match
first, then case-insensitive match after stripping spaces (never
underscores) — so with header `Product Code`, extracting `productcode`
and extracting `PRODUCT CODE` return the same result, while
`product_code` does not resolve. -/
theorem C4_resolution_two_pass_amended :
    (∀ (rows : List (List String)) (q : Bool),
      csv_column_to_mysql_tuple (some ⟨["Product Code"], rows⟩) "productcode" q
        = csv_column_to_mysql_tuple (some ⟨["Product Code"], rows⟩)
            "PRODUCT CODE" q) ∧
    resolveColumn ["Product Code"] "product_code" = none ∧
    (∀ (fieldnames : List String) (cn : String),
      resolveColumn fieldnames cn =
        if pyTruthy (findColumnPass1 fieldnames cn) then
          findColumnPass1 fieldnames cn
        else if pyTruthy (findColumnPass2 fieldnames cn) then
          findColumnPass2 fieldnames cn
        else none) := by
  refine ⟨?_, by decide, fun fieldnames cn => ?_⟩
  case refine_2 =>
    unfold resolveColumn
    by_cases h1 : pyTruthy (findColumnPass1 fieldnames cn) = true
    · simp [h1]
    · simp [h1]
  intro rows q
  have h1 : resolveColumn ["Product Code"] "productcode"
      = some "Product Code" := by decide
  have h2 : resolveColumn ["Product Code"] "PRODUCT CODE"
      = some "Product Code" := by decide
  simp only [csv_column_to_mysql_tuple, h1, h2]

/-- C5 counterexample: with `add_quotes = true` (the default) the tuple
for value `a` is `('a')`; trimming the parentheses and splitting on
`, ` gives the quoted token `'a'`, not the trimmed value `a`. -/
theorem C5_roundtrip_counterexample :
    csv_column_to_mysql_tuple (some ⟨["A"], [["a"]]⟩) "A" true
        = some "('a')" ∧
    splitTuple "('a')" ≠ ["a"] := by
  constructor
  · decide
  · decide

/-- C5 (amended): when `csv_column_to_mysql_tuple` succeeds, trimming
the outer parentheses and splitting on `, ` reconstructs exactly the
formatted tokens — the trimmed non-empty column values, each wrapped in
single quotes when `add_quotes` is true — provided no token contains
`, ` as a substring. -/
theorem C5_roundtrip_amended (csv : CSVFile) (cn actual : String) (q : Bool)
    (s : String)
    (hres : resolveColumn csv.header cn = some actual)
    (hs : csv_column_to_mysql_tuple (some csv) cn q = some s)
    (hsep : ∀ t ∈ formattedValues csv actual q, containsSep t.data = false) :
    splitTuple s = formattedValues csv actual q := by
  obtain ⟨hshape, hne⟩ := tuple_shape csv cn actual q s hres hs
  subst hshape
  unfold splitTuple
  rw [strData_append, strData_append]
  have h1 : (("(" : String).data ++ (pyJoin ", " (formattedValues csv actual q)).data
      ++ (")" : String).data).drop 1
      = (pyJoin ", " (formattedValues csv actual q)).data ++ [')'] := rfl
  rw [h1, List.dropLast_concat, pyJoin_commaSpace_data,
    splitCS_joinCS _ (by simpa using hne)
      (by intro t ht; obtain ⟨u, hu, rfl⟩ := List.mem_map.mp ht; exact hsep u hu)]
  rw [List.map_map]
  have hid : (String.mk ∘ String.data) = id := funext (fun u => rfl)
  rw [hid, List.map_id]

/-- Witness for C5 (amended) at an unquoted two-value extraction. -/
theorem C5_roundtrip_amended_witness :
    splitTuple "(a, b)" = formattedValues ⟨["A"], [["a"], ["b"]]⟩ "A" false :=
  C5_roundtrip_amended ⟨["A"], [["a"], ["b"]]⟩ "A" "A" false "(a, b)"
    (by decide) (by decide) (by decide)

/-- C6: the extractor / update-script operations turn every error into
an absent result instead of an exception: a missing file gives `none`
for both tools, an unresolved column gives `none`, an empty surviving
value set gives `none`, and with a missing file the `main` tail neither
prints nor writes any output file (the filesystem is unchanged). -/
theorem C6_errors_absent_result (cn cn2 t : String) (q q2 : Bool) (fs : FS)
    (o : Option String) (csv1 csv2 : CSVFile) (actual : String)
    (h1 : resolveColumn csv1.header cn = none)
    (h2 : resolveColumn csv2.header cn2 = some actual)
    (h3 : extractValues csv2 actual = []) :
    csv_column_to_mysql_tuple none cn q = none ∧
    csv_to_mysql_update_script none t = none ∧
    main_tail fs none o = (fs, false) ∧
    csv_column_to_mysql_tuple (some csv1) cn q = none ∧
    csv_column_to_mysql_tuple (some csv2) cn2 q2 = none := by
  refine ⟨rfl, rfl, rfl, ?_, ?_⟩
  · simp [csv_column_to_mysql_tuple, h1]
  · simp [csv_column_to_mysql_tuple, h2, h3]

/-- Witness for C6: a header without the requested column and a column
of whitespace-only values. -/
theorem C6_errors_absent_result_witness :
    csv_column_to_mysql_tuple none "B" true = none ∧
    csv_to_mysql_update_script none "t" = none ∧
    main_tail ⟨[], []⟩ none (some "output.txt") = (⟨[], []⟩, false) ∧
    csv_column_to_mysql_tuple (some ⟨["A"], [["x"]]⟩) "B" true = none ∧
    csv_column_to_mysql_tuple (some ⟨["A"], [[" "]]⟩) "A" false = none :=
  C6_errors_absent_result "B" "A" "t" true false ⟨[], []⟩ (some "output.txt")
    ⟨["A"], [["x"]]⟩ ⟨["A"], [[" "]]⟩ "A" (by decide) (by decide) (by decide)

/-- C7 counterexample: for the bare filename `output.txt` the directory
component is empty, `os.makedirs('')` raises, the handler swallows the
error, and nothing is written — the claim's "writes the content for
every output path" fails. -/
theorem C7_save_counterexample :
    lookupFile (save_to_file ⟨[], []⟩ "hello" "output.txt") "output.txt"
      = none := by
  decide

/-- C7 (amended): for every output path whose directory component is
non-empty, `save_to_file` creates that directory and writes the content
as the file's contents (overwriting any previous entry); when the
directory component is empty the `makedirs` call fails, the error is
swallowed (no exception propagates) and the filesystem is unchanged. -/
theorem C7_save_to_file_amended (fs : FS) (content output_file : String) :
    (dirname output_file ≠ "" →
      lookupFile (save_to_file fs content output_file) output_file
          = some content ∧
      dirname output_file ∈ (save_to_file fs content output_file).dirs) ∧
    (dirname output_file = "" → save_to_file fs content output_file = fs) := by
  constructor
  · intro h
    unfold save_to_file makedirs
    rw [if_neg h]
    refine ⟨lookup_setFile fs.files output_file content, ?_⟩
    by_cases hd : dirname output_file ∈ fs.dirs
    · simp [hd]
    · simp [hd]
  · intro h
    unfold save_to_file makedirs
    rw [if_pos h]

/-- Witness for C7 (amended): a path with a directory succeeds
(overwriting an existing entry), a bare filename leaves the filesystem
unchanged. -/
theorem C7_save_to_file_amended_witness :
    lookupFile (save_to_file ⟨[], [("out/a.txt", "old")]⟩ "x" "out/a.txt")
        "out/a.txt" = some "x" ∧
    save_to_file ⟨["d"], []⟩ "x" "bare.txt" = ⟨["d"], []⟩ :=
  ⟨((C7_save_to_file_amended ⟨[], [("out/a.txt", "old")]⟩ "x" "out/a.txt").1
      (by decide)).1,
    (C7_save_to_file_amended ⟨["d"], []⟩ "x" "bare.txt").2 (by decide)⟩

/-- C8: a header without an `id` column plus at least one data row makes
`csv_to_mysql_update_script` fail as a whole (`row['id']` raises
`KeyError` on the first row, the handler reports once and returns
`None`) rather than crash mid-loop or emit partial output. -/
theorem C8_missing_id_single_failure (csv : CSVFile) (t : String)
    (hid : "id" ∉ csv.header) (hrows : csv.rows ≠ []) :
    csv_to_mysql_update_script (some csv) t = none := by
  rcases hr : csv.rows with _ | ⟨r, rs⟩
  · exact absurd hr hrows
  · simp only [csv_to_mysql_update_script, hr, build_statements, update_statement,
      lookup_zip_none "id" csv.header r hid, Option.map_none']

/-- Witness for C8: header `name` with one row. -/
theorem C8_missing_id_single_failure_witness :
    csv_to_mysql_update_script (some ⟨["name"], [["a"]]⟩) "t" = none :=
  C8_missing_id_single_failure ⟨["name"], [["a"]]⟩ "t" (by decide) (by decide)

/-- C9: deduplication is idempotent — running `deduplicate_csv` on an
already-deduplicated dataset changes neither the rows nor their order
nor the header. -/
theorem C9_deduplicate_idempotent (d : CSVFile) :
    deduplicate_csv (deduplicate_csv d) = deduplicate_csv d := by
  unfold deduplicate_csv
  simp only [drop_duplicates_idem]

/-- C10: a header-only CSV makes `csv_to_mysql_update_script` return the
empty string, and `main`'s `if result:` guard treats that exactly like a
failure — nothing is printed and no output file is written even when an
output path was supplied. -/
theorem C10_empty_script_not_written (h : List String) (t : String) (fs : FS)
    (o : Option String) :
    csv_to_mysql_update_script (some ⟨h, []⟩) t = some "" ∧
    main_tail fs (some "") o = (fs, false) := by
  exact ⟨rfl, rfl⟩
